import Mathlib

/-!
Verification development for the stats-caching subsystem of the SweepLabC
backend (`backend/src/routes/stats.js`).

The JavaScript module is shallowly embedded: numbers become `ℚ` (JS number
arithmetic on the mathematical values, with `Math.round` modelled exactly as
`⌊x + 1/2⌋`), the JS object used as a category dictionary becomes an
association list in insertion order, module-level mutable state becomes an
explicit `StatsState` record threaded through the operations, and the
asynchronous callbacks become functions from the outcome of the file read to
the resulting state.
-/

namespace SweepLab

/-- An item record as stored in `data/items.json`:
`{id, name, category, price}`. -/
structure Item where
  id : Int
  name : String
  category : String
  price : ℚ
  deriving DecidableEq, Repr

/-- Per-category bucket of the statistics summary:
`{count, totalValue}` accumulated by the `reduce` in `calculateStats`. -/
structure CategoryStat where
  count : Nat
  totalValue : ℚ
  deriving DecidableEq, Repr

/-- `priceRange` of the statistics summary. -/
structure PriceRange where
  min : ℚ
  max : ℚ
  deriving DecidableEq, Repr

/-- The statistics summary returned by `calculateStats`.  `categories` is the
JS object built up by `reduce`, embedded as an association list in insertion
order. -/
structure Stats where
  total : Nat
  averagePrice : ℚ
  totalValue : ℚ
  categories : List (String × CategoryStat)
  priceRange : PriceRange
  deriving DecidableEq, Repr

/-- JS `Math.round x`: the integer `⌊x + 1/2⌋` (half-values round toward
positive infinity). -/
def jsRound (x : ℚ) : Int :=
  ⌊x + 1/2⌋

/-- `Math.round (x * 100) / 100`, the rounding to 2 decimal places used for
`averagePrice` and `totalValue` in `calculateStats`. -/
def round2 (x : ℚ) : ℚ :=
  (jsRound (x * 100) : ℚ) / 100

/-- Modelled from the spec: rounding "to 2 decimal places using standard
round-half-up on the 3rd decimal" (spec §4.1) — add half a hundredth and take
the floor of the hundredths.  Stated separately from `round2` so that the
rounding the code performs can be compared against the rounding the spec
describes. -/
def roundHalfUp2 (x : ℚ) : ℚ :=
  (⌊x * 100 + 1/2⌋ : ℚ) / 100

/-- Property access `acc[c]` on the association-list embedding of a JS
object: the value stored under the (unique) key `c`, or `none` when the
property is absent. -/
def lookupCat (c : String) : List (String × CategoryStat) → Option CategoryStat
  | [] => none
  | (k, v) :: rest => if c = k then some v else lookupCat c rest

/-- One step of the category `reduce`:
`if (!acc[item.category]) acc[item.category] = {count: 0, totalValue: 0};
acc[item.category].count++; acc[item.category].totalValue += item.price;`.
On the association-list embedding of the JS object (keys are unique, built up
from `{}`): update the bucket under the key when present, otherwise append a
fresh bucket `{count: 0+1, totalValue: 0+price}` at the end. -/
def bumpCategory : List (String × CategoryStat) → String → ℚ →
    List (String × CategoryStat)
  | [], cat, price => [(cat, ⟨1, price⟩)]
  | (k, v) :: rest, cat, price =>
      if k = cat then (k, ⟨v.count + 1, v.totalValue + price⟩) :: rest
      else (k, v) :: bumpCategory rest cat price

/-- The category breakdown
`items.reduce((acc, item) => { ... }, {})` of `calculateStats`. -/
def categoriesOf (items : List Item) : List (String × CategoryStat) :=
  items.foldl (fun acc item => bumpCategory acc item.category item.price) []

/-- The number of items whose `category` is exactly the string `c`
(case-sensitive, no normalization). -/
def countCat : List Item → String → Nat
  | [], _ => 0
  | item :: rest, c => (if item.category = c then 1 else 0) + countCat rest c

/-- The sum of the prices of the items whose `category` is exactly `c`. -/
def sumCat : List Item → String → ℚ
  | [], _ => 0
  | item :: rest, c => (if item.category = c then item.price else 0) + sumCat rest c

/-- Sum of the `price` fields, the accumulator of
`items.reduce((acc, cur) => acc + cur.price, 0)`. -/
def sumPrices (items : List Item) : ℚ :=
  items.foldl (fun acc cur => acc + cur.price) 0

/-- The all-zero summary returned for an empty (or missing) item array. -/
def zeroStats : Stats :=
  { total := 0
    averagePrice := 0
    totalValue := 0
    categories := []
    priceRange := { min := 0, max := 0 } }

/-- `calculateStats(items)`.  The argument is `Option (List Item)` because the
JS function guards `if (!items || items.length === 0)`, accepting `null` /
`undefined` as well as an array.  For a non-empty array it computes the count,
the rounded average and total value, the category breakdown, and
`Math.min(...prices)` / `Math.max(...prices)`. -/
def calculateStats : Option (List Item) → Stats
  | none => zeroStats
  | some [] => zeroStats
  | some (item0 :: rest) =>
      let items := item0 :: rest
      let total := items.length
      let totalValue := sumPrices items
      let averagePrice := totalValue / total
      { total := total
        averagePrice := round2 averagePrice
        totalValue := round2 totalValue
        categories := categoriesOf items
        priceRange :=
          { min := rest.foldl (fun m it => min m it.price) item0.price
            max := rest.foldl (fun m it => max m it.price) item0.price } }

/-- The concrete scenario of spec §8: a backing store with 5 items whose
category `"Electronics"` holds exactly 2 items priced `999.99` and `29.99`. -/
def sampleItems : List Item :=
  [ ⟨1, "Laptop Pro", "Electronics", 99999/100⟩
  , ⟨2, "Noise Cancelling Headphones", "Electronics", 2999/100⟩
  , ⟨3, "Ultra-Wide Monitor", "Furniture", 14999/100⟩
  , ⟨4, "Ergonomic Chair", "Furniture", 7999/100⟩
  , ⟨5, "Standing Desk", "Office", 24999/100⟩ ]

/-- The category key of the concrete scenario. -/
def electronics : String :=
  "Electronics"

/-- An opaque JavaScript error value (an `fs` error or a `JSON.parse`
`SyntaxError`); only its identity matters to the control flow. -/
structure JsError where
  msg : String
  deriving DecidableEq, Repr

/-- Timestamps (`Date.now()` values, milliseconds). -/
abbrev Timestamp := Nat

/-- The outcome of `fs.readFile(DATA_PATH)` followed by `JSON.parse(raw)`:
either the read itself fails, or it yields raw text whose parse either fails
or produces the items value (`JSON.parse` may legally produce `null`, hence
the inner `Option`). -/
inductive ReadOutcome where
  | readErr (e : JsError)
  | parsed (r : Except JsError (Option (List Item)))
  deriving Repr

/-- The error a given read outcome makes `loadStats` reject with, if any. -/
def ReadOutcome.failure : ReadOutcome → Option JsError
  | .readErr e => some e
  | .parsed (.error e) => some e
  | .parsed (.ok _) => none

/-- The module-level mutable state of `stats.js`:
`let statsCache = null; let cacheTimestamp = null; let watcher = null;`.
The watcher handle is embedded as an identifier for the `fs.FSWatcher`. -/
structure StatsState where
  statsCache : Option Stats
  cacheTimestamp : Option Timestamp
  watcher : Option Nat
  deriving DecidableEq, Repr

/-- The initial module state: all three variables `null`. -/
def initialState : StatsState :=
  { statsCache := none, cacheTimestamp := none, watcher := none }

/-- `loadStats()`: read and parse the data file; on success compute the stats,
update `statsCache` and `cacheTimestamp` and resolve with the stats; on a read
or parse failure reject without touching the state.  `rd` is the outcome of
the file read, `now` the value `Date.now()` returns at the cache update. -/
def loadStats (rd : ReadOutcome) (now : Timestamp) (s : StatsState) :
    Except JsError Stats × StatsState :=
  match rd with
  | .readErr e => (.error e, s)
  | .parsed (.error e) => (.error e, s)
  | .parsed (.ok items) =>
      let stats := calculateStats items
      (.ok stats,
       { s with statsCache := some stats, cacheTimestamp := some now })

/-- The JSON body of a successful stats response:
`{...stats, cached, cacheAge?}`. -/
structure StatsBody where
  total : Nat
  averagePrice : ℚ
  totalValue : ℚ
  categories : List (String × CategoryStat)
  priceRange : PriceRange
  cached : Bool
  cacheAge : Option Int
  deriving DecidableEq, Repr

/-- Spread a summary into a response body with the given cache metadata. -/
def Stats.toBody (st : Stats) (cached : Bool) (cacheAge : Option Int) :
    StatsBody :=
  { total := st.total
    averagePrice := st.averagePrice
    totalValue := st.totalValue
    categories := st.categories
    priceRange := st.priceRange
    cached := cached
    cacheAge := cacheAge }

/-- What the `GET /api/stats` handler does with the response: `res.json(body)`
or `next(err)`. -/
inductive GetResponse where
  | json (body : StatsBody)
  | nextErr (e : JsError)
  deriving DecidableEq, Repr

/-- The `GET /api/stats` handler registered on the router.  If `statsCache` is non-null it responds
with the cached summary plus `{cached: true, cacheAge: Date.now() - cacheTimestamp}`
(JS coerces a `null` `cacheTimestamp` to `0` in the subtraction, hence
`getD 0`); otherwise it awaits `loadStats` and responds with the fresh summary
plus `{cached: false}`, or forwards a rejection to `next`. -/
def routerGet (rd : ReadOutcome) (now : Timestamp) (s : StatsState) :
    GetResponse × StatsState :=
  match s.statsCache with
  | some st =>
      (.json (st.toBody true (some ((now : Int) - (s.cacheTimestamp.getD 0 : Int)))), s)
  | none =>
      match loadStats rd now s with
      | (.ok stats, s1) => (.json (stats.toBody false none), s1)
      | (.error e, s1) => (.nextErr e, s1)

/-- The synchronous part of the watch callback on a `change` event:
`statsCache = null; cacheTimestamp = null;` — it completes before the
asynchronous `loadStats()` refresh starts. -/
def changeEventSync (s : StatsState) : StatsState :=
  { s with statsCache := none, cacheTimestamp := none }

/-- The `fs.watch` callback.  On a `change` event it clears the cache
synchronously and then awaits `loadStats()` inside `try/catch`: a rejection is
caught and logged (the returned `Option JsError` is what went to
`console.error`), never re-thrown.  Any other event type is ignored. -/
def watchCallback (eventType : String) (rd : ReadOutcome) (now : Timestamp)
    (s : StatsState) : StatsState × Option JsError :=
  if eventType = "change" then
    match loadStats rd now (changeEventSync s) with
    | (.ok _, s1) => (s1, none)
    | (.error e, s1) => (s1, some e)
  else
    (s, none)

/-- `setupFileWatcher()`: a no-op if `watcher` is already set; otherwise
attempt `fs.watch(DATA_PATH, ...)` — on success store the returned handle, on
failure log and leave `watcher` null.  `watchResult` is the outcome of the
`fs.watch` call. -/
def setupFileWatcher (watchResult : Except JsError Nat) (s : StatsState) :
    StatsState :=
  match s.watcher with
  | some _ => s
  | none =>
      match watchResult with
      | .ok h => { s with watcher := some h }
      | .error _ => s

/-- `router._cleanup()`: if a watcher exists, close it and reset `watcher` to
null; otherwise do nothing.  The second component is the handle passed to
`.close()`, if any. -/
def cleanup (s : StatsState) : StatsState × Option Nat :=
  match s.watcher with
  | some h => ({ s with watcher := none }, some h)
  | none => (s, none)

/-- The invariant of claim C8: `statsCache` and `cacheTimestamp` are both set
or both null. -/
def cachePaired (s : StatsState) : Prop :=
  s.statsCache.isSome = s.cacheTimestamp.isSome

instance (s : StatsState) : Decidable (cachePaired s) := by
  unfold cachePaired; infer_instance

/-- The `eventType` string that triggers invalidation in the watch callback. -/
def changeEvent : String :=
  "change"

/-- Merge of an existing category bucket with the total contribution of a
block of items: used to state the accumulator invariant of the category
`reduce`. -/
def mergeStat (o : Option CategoryStat) (n : Nat) (q : ℚ) : Option CategoryStat :=
  match o with
  | some st => some ⟨st.count + n, st.totalValue + q⟩
  | none => if n = 0 then none else some ⟨n, q⟩

end SweepLab

namespace SweepLab

theorem lookupCat_bump (acc : List (String × CategoryStat)) (cat c : String) (p : ℚ) :
    lookupCat c (bumpCategory acc cat p) =
      if c = cat then
        some ⟨((lookupCat cat acc).getD ⟨0, 0⟩).count + 1,
              ((lookupCat cat acc).getD ⟨0, 0⟩).totalValue + p⟩
      else lookupCat c acc := by
  induction acc with
  | nil => simp [bumpCategory, lookupCat]
  | cons q acc ih =>
      obtain ⟨k, v⟩ := q
      by_cases hk : k = cat
      · subst hk
        by_cases hc : c = k
        · subst hc
          simp [bumpCategory, lookupCat]
        · simp [bumpCategory, lookupCat, hc]
      · have hck : ¬(cat = k) := fun h => hk h.symm
        by_cases hc : c = k
        · subst hc
          simp [bumpCategory, lookupCat, hk, hck]
        · simp [bumpCategory, lookupCat, hk, hc, hck, ih]

theorem lookupCat_fold (items : List Item) (acc : List (String × CategoryStat))
    (c : String) :
    lookupCat c (items.foldl (fun a item => bumpCategory a item.category item.price) acc) =
      mergeStat (lookupCat c acc) (countCat items c) (sumCat items c) := by
  induction items generalizing acc with
  | nil =>
      rcases h : lookupCat c acc with _ | st <;> simp [mergeStat, countCat, sumCat, h]
  | cons item rest ih =>
      rw [List.foldl_cons, ih, lookupCat_bump]
      by_cases hc : c = item.category
      · subst hc
        rw [if_pos rfl, countCat, sumCat, if_pos rfl, if_pos rfl]
        rcases h : lookupCat item.category acc with _ | st
        · simp only [h, mergeStat, Option.getD_none]
          have hne : 1 + countCat rest item.category ≠ 0 := by omega
          rw [if_neg hne]
          simp only [Option.some.injEq, CategoryStat.mk.injEq]
          refine ⟨?_, ?_⟩
          · trivial
          · ring
        · simp only [h, mergeStat, Option.getD_some]
          simp only [Option.some.injEq, CategoryStat.mk.injEq]
          refine ⟨?_, ?_⟩
          · omega
          · ring
      · have hc2 : ¬(item.category = c) := fun h => hc h.symm
        rw [if_neg hc, countCat, sumCat, if_neg hc2, if_neg hc2]
        simp

theorem lookupCat_categoriesOf (items : List Item) (c : String) :
    lookupCat c (categoriesOf items) =
      if countCat items c = 0 then none
      else some ⟨countCat items c, sumCat items c⟩ := by
  rw [categoriesOf, lookupCat_fold]
  simp [mergeStat, lookupCat]

theorem mem_keys_iff_lookupCat (l : List (String × CategoryStat)) (c : String) :
    c ∈ l.map Prod.fst ↔ (lookupCat c l).isSome := by
  induction l with
  | nil => simp [lookupCat]
  | cons q rest ih =>
      obtain ⟨k, v⟩ := q
      by_cases hc : c = k <;> simp [lookupCat, hc, ih]

theorem countCat_ne_zero_iff (items : List Item) (c : String) :
    countCat items c ≠ 0 ↔ c ∈ items.map Item.category := by
  induction items with
  | nil => simp [countCat]
  | cons item rest ih =>
      by_cases hc : item.category = c
      · simp [countCat, hc, ih]
      · have hc2 : ¬(c = item.category) := fun h => hc h.symm
        simp [countCat, hc, hc2, ih]

theorem categories_eval_sample :
    lookupCat electronics (calculateStats (some sampleItems)).categories =
      some ⟨2, 102998/100⟩ := by
  norm_num [calculateStats, sampleItems, categoriesOf, bumpCategory, lookupCat,
    electronics]

theorem foldl_add_price (items : List Item) (a : ℚ) :
    items.foldl (fun acc cur => acc + cur.price) a = a + sumPrices items := by
  induction items generalizing a with
  | nil => simp [sumPrices]
  | cons item rest ih =>
      rw [List.foldl_cons]
      rw [show sumPrices (item :: rest) = (0 + item.price) + sumPrices rest from
        ih (0 + item.price)]
      rw [ih (a + item.price)]
      ring

theorem sumPrices_cons (item : Item) (rest : List Item) :
    sumPrices (item :: rest) = item.price + sumPrices rest := by
  rw [show sumPrices (item :: rest) = (0 + item.price) + sumPrices rest from
    foldl_add_price rest (0 + item.price)]
  ring

theorem round2_hundredth (x : ℚ) (h : ∃ k : ℤ, x = (k : ℚ)/100) : round2 x = x := by
  obtain ⟨k, rfl⟩ := h
  rw [round2, jsRound]
  rw [show (k : ℚ)/100 * 100 = (k : ℚ) from by field_simp]
  rw [show ⌊(k : ℚ) + 1/2⌋ = k from by
    rw [Int.floor_eq_iff]
    constructor
    · norm_num
    · linarith
    ]

theorem sumPrices_hundredth (items : List Item)
    (h : ∀ item ∈ items, ∃ k : ℤ, item.price = (k : ℚ)/100) :
    ∃ k : ℤ, sumPrices items = (k : ℚ)/100 := by
  induction items with
  | nil => exact ⟨0, by simp [sumPrices]⟩
  | cons item rest ih =>
      obtain ⟨k1, hk1⟩ := h item (by simp)
      obtain ⟨k2, hk2⟩ := ih (fun it hit => h it (by simp [hit]))
      refine ⟨k1 + k2, ?_⟩
      rw [sumPrices_cons, hk1, hk2]
      push_cast [Int.cast_add]
      ring

theorem sum_map_round2 (items : List Item)
    (h : ∀ item ∈ items, ∃ k : ℤ, item.price = (k : ℚ)/100) :
    (items.map (fun item => round2 item.price)).sum = sumPrices items := by
  induction items with
  | nil => simp [sumPrices]
  | cons item rest ih =>
      rw [List.map_cons, List.sum_cons, sumPrices_cons,
        round2_hundredth _ (h item (by simp)),
        ih (fun it hit => h it (by simp [hit]))]

theorem calculateStats_categories_eq (items : List Item) :
    (calculateStats (some items)).categories = categoriesOf items := by
  match items with
  | [] => rfl
  | a :: l => rfl

end SweepLab

namespace SweepLab

/-- Claim C1: on a summary request, if a cache entry is present the handler
responds with the stored summary plus `cached: true` and
`cacheAge = now - computedAt` (non-negative when the clock has not gone
backwards since the entry was computed), leaving the state untouched; if no
cache entry is present it recomputes the summary from the current store
contents, stores it in the cache as a side effect, and responds with the
summary plus `cached: false` and no `cacheAge`; `cacheAge` is present in a
successful response if and only if `cached` is true. -/
theorem routerGet_spec (s : StatsState) (now : Timestamp) (rd : ReadOutcome) :
    (∀ st t, s.statsCache = some st → s.cacheTimestamp = some t →
      routerGet rd now s = (.json (st.toBody true (some ((now : Int) - (t : Int)))), s) ∧
      (t ≤ now → 0 ≤ (now : Int) - (t : Int))) ∧
    (s.statsCache = none → ∀ items, rd = .parsed (.ok items) →
      routerGet rd now s =
        (.json ((calculateStats items).toBody false none),
         { s with statsCache := some (calculateStats items),
                  cacheTimestamp := some now })) ∧
    (∀ b s1, routerGet rd now s = (.json b, s1) →
      (b.cacheAge.isSome ↔ b.cached = true)) := by
  refine ⟨?_, ?_, ?_⟩
  · intro st t hst ht
    constructor
    · simp [routerGet, hst, ht]
    · intro hle
      zify at hle
      omega
  · intro hnone items hrd
    subst hrd
    simp [routerGet, hnone, loadStats]
  · intro b s1 hb
    rcases hcache : s.statsCache with _ | st
    · rcases rd with e | r
      · simp [routerGet, hcache, loadStats] at hb
      · rcases r with e | items
        · simp [routerGet, hcache, loadStats] at hb
        · simp [routerGet, hcache, loadStats] at hb
          simp [← hb.1, Stats.toBody]
    · simp [routerGet, hcache] at hb
      simp [← hb.1, Stats.toBody]

/-- Witness for `routerGet_spec`: a concrete cached state served at time 7
with a cache computed at time 5. -/
theorem routerGet_spec_witness :
    routerGet (.parsed (.ok none)) 7 ⟨some zeroStats, some 5, none⟩ =
      (.json (zeroStats.toBody true (some ((7 : Int) - (5 : Int)))),
       ⟨some zeroStats, some 5, none⟩) ∧
    (0 : Int) ≤ (7 : Int) - (5 : Int) := by
  have h := (routerGet_spec ⟨some zeroStats, some 5, none⟩ 7
    (.parsed (.ok none))).1 zeroStats 5 rfl rfl
  exact ⟨h.1, h.2 (by norm_num)⟩

/-- Claim C2: for every non-empty item sequence, `total` is the sequence
length and `totalValue` is the price sum rounded to 2 decimal places; when
every price is an exact multiple of a hundredth (the regime in which the
floating-tolerance phrasing of the spec is exact), this coincides with the
sum of the individually rounded prices. -/
theorem calculateStats_total_totalValue (items : List Item) (h : items ≠ []) :
    (calculateStats (some items)).total = items.length ∧
    (calculateStats (some items)).totalValue = round2 (sumPrices items) ∧
    ((∀ item ∈ items, ∃ k : ℤ, item.price = (k : ℚ)/100) →
      (calculateStats (some items)).totalValue =
        (items.map (fun item => round2 item.price)).sum) := by
  match items with
  | [] => exact absurd rfl h
  | a :: l =>
      refine ⟨rfl, rfl, fun hh => ?_⟩
      rw [show (calculateStats (some (a :: l))).totalValue
            = round2 (sumPrices (a :: l)) from rfl]
      rw [round2_hundredth _ (sumPrices_hundredth _ hh), sum_map_round2 _ hh]

/-- Witness for `calculateStats_total_totalValue` at the 5-item sample
store. -/
theorem calculateStats_total_totalValue_witness :
    (calculateStats (some sampleItems)).total = sampleItems.length ∧
    (calculateStats (some sampleItems)).totalValue =
      (sampleItems.map (fun item => round2 item.price)).sum := by
  have h := calculateStats_total_totalValue sampleItems (by simp [sampleItems])
  refine ⟨h.1, h.2.2 ?_⟩
  intro item hitem
  simp [sampleItems] at hitem
  rcases hitem with h1 | h1 | h1 | h1 | h1
  · exact ⟨99999, by rw [h1]; norm_num⟩
  · exact ⟨2999, by rw [h1]; norm_num⟩
  · exact ⟨14999, by rw [h1]; norm_num⟩
  · exact ⟨7999, by rw [h1]; norm_num⟩
  · exact ⟨24999, by rw [h1]; norm_num⟩

/-- Claim C3: for every non-empty item sequence, `averagePrice` is the price
sum divided by the item count rounded to 2 decimal places by round-half-up on
the 3rd decimal (the spec-side rule `roundHalfUp2`), and `totalValue` is
rounded by the same rule. -/
theorem calculateStats_rounding (items : List Item) (h : items ≠ []) :
    (calculateStats (some items)).averagePrice
      = roundHalfUp2 (sumPrices items / (items.length : ℚ)) ∧
    (calculateStats (some items)).totalValue = roundHalfUp2 (sumPrices items) := by
  match items with
  | [] => exact absurd rfl h
  | a :: l => exact ⟨rfl, rfl⟩

/-- Witness for `calculateStats_rounding` at the 5-item sample store. -/
theorem calculateStats_rounding_witness :
    (calculateStats (some sampleItems)).averagePrice
      = roundHalfUp2 (sumPrices sampleItems / (sampleItems.length : ℚ)) ∧
    (calculateStats (some sampleItems)).totalValue
      = roundHalfUp2 (sumPrices sampleItems) :=
  calculateStats_rounding sampleItems (by simp [sampleItems])

/-- Claim C4: the keys of the `categories` mapping are exactly the distinct
exact category strings of the items (case-sensitive); the bucket under a key
holds the count of the items with exactly that category and the sum of their
prices; and on the concrete 5-item sample store the `"Electronics"` bucket is
`{count: 2, totalValue: 1029.98}`. -/
theorem calculateStats_categories (items : List Item) :
    (∀ c, c ∈ (calculateStats (some items)).categories.map Prod.fst ↔
        c ∈ items.map Item.category) ∧
    (∀ c, lookupCat c (calculateStats (some items)).categories =
        if countCat items c = 0 then none
        else some ⟨countCat items c, sumCat items c⟩) ∧
    lookupCat electronics (calculateStats (some sampleItems)).categories =
      some ⟨2, 102998/100⟩ := by
  refine ⟨?_, ?_, ?_⟩
  · intro c
    rw [calculateStats_categories_eq, mem_keys_iff_lookupCat,
      lookupCat_categoriesOf, ← countCat_ne_zero_iff]
    by_cases h0 : countCat items c = 0 <;> simp [h0]
  · intro c
    rw [calculateStats_categories_eq]
    exact lookupCat_categoriesOf items c
  · exact categories_eval_sample

/-- Claim C5: the empty item array yields exactly the all-zero summary. -/
theorem calculateStats_empty :
    calculateStats (some []) =
      { total := 0, averagePrice := 0, totalValue := 0, categories := [],
        priceRange := { min := 0, max := 0 } } := rfl

/-- Claim C10: a `null` or `undefined` argument (the `none` input) also yields
exactly the all-zero summary; the function is total on its whole interface. -/
theorem calculateStats_null :
    calculateStats none =
      { total := 0, averagePrice := 0, totalValue := 0, categories := [],
        priceRange := { min := 0, max := 0 } } := rfl

end SweepLab

namespace SweepLab

/-- Claim C6: on a `change` event the callback clears the cache synchronously
(the cleared intermediate state is what the asynchronous reload starts from),
then reloads, recomputes and stores the summary; a failing reload is absorbed
at the boundary of the background task (it only reaches the log, the callback
still returns a state — the watch loop keeps running — and the cache is left
entirely absent), and the watcher handle is never touched. -/
theorem watchCallback_spec (s : StatsState) (rd : ReadOutcome) (now : Timestamp) :
    ((changeEventSync s).statsCache = none ∧
      (changeEventSync s).cacheTimestamp = none ∧
      (watchCallback changeEvent rd now s).1 =
        (loadStats rd now (changeEventSync s)).2) ∧
    (∀ items, rd = .parsed (.ok items) →
      (watchCallback changeEvent rd now s).1 =
        { s with statsCache := some (calculateStats items),
                 cacheTimestamp := some now } ∧
      (watchCallback changeEvent rd now s).2 = none) ∧
    (∀ e, rd.failure = some e →
      (watchCallback changeEvent rd now s).1 =
        { s with statsCache := none, cacheTimestamp := none } ∧
      (watchCallback changeEvent rd now s).2 = some e) ∧
    (watchCallback changeEvent rd now s).1.watcher = s.watcher := by
  refine ⟨⟨rfl, rfl, ?_⟩, ?_, ?_, ?_⟩
  · rcases rd with e | r
    · simp [watchCallback, changeEvent, loadStats]
    · rcases r with e | items <;> simp [watchCallback, changeEvent, loadStats]
  · intro items hrd
    subst hrd
    simp [watchCallback, changeEvent, loadStats, changeEventSync]
  · intro e he
    rcases rd with e2 | r
    · simp [ReadOutcome.failure] at he
      subst he
      simp [watchCallback, changeEvent, loadStats, changeEventSync]
    · rcases r with e2 | items
      · simp [ReadOutcome.failure] at he
        subst he
        simp [watchCallback, changeEvent, loadStats, changeEventSync]
      · simp [ReadOutcome.failure] at he
  · rcases rd with e | r
    · simp [watchCallback, changeEvent, loadStats, changeEventSync]
    · rcases r with e | items <;>
        simp [watchCallback, changeEvent, loadStats, changeEventSync]

/-- Witness for `watchCallback_spec`: a failing reload on a warm state leaves
the cache absent, logs the error, and keeps the watcher. -/
theorem watchCallback_spec_witness :
    (watchCallback changeEvent (.readErr ⟨"ENOENT"⟩) 3
        ⟨some zeroStats, some 1, some 0⟩).1 = ⟨none, none, some 0⟩ ∧
    (watchCallback changeEvent (.readErr ⟨"ENOENT"⟩) 3
        ⟨some zeroStats, some 1, some 0⟩).2 = some ⟨"ENOENT"⟩ := by
  have h := (watchCallback_spec ⟨some zeroStats, some 1, some 0⟩
    (.readErr ⟨"ENOENT"⟩) 3).2.2.1 ⟨"ENOENT"⟩ rfl
  exact ⟨h.1, h.2⟩

/-- Claim C7: a store read or parse failure during a request-triggered
recomputation (cache absent at request time) makes `loadStats` reject with
that error and leave the state untouched, and the handler forwards the error
to `next` (an error response, not a swallowed failure); the cache is still
absent afterwards. -/
theorem loadStats_error_spec (s : StatsState) (rd : ReadOutcome) (now : Timestamp)
    (e : JsError) (hc : s.statsCache = none) (ht : s.cacheTimestamp = none)
    (hf : rd.failure = some e) :
    loadStats rd now s = (.error e, s) ∧
    routerGet rd now s = (.nextErr e, s) ∧
    (routerGet rd now s).2.statsCache = none ∧
    (routerGet rd now s).2.cacheTimestamp = none := by
  have hload : loadStats rd now s = (.error e, s) := by
    rcases rd with e2 | r
    · simp [ReadOutcome.failure] at hf
      subst hf
      rfl
    · rcases r with e2 | items
      · simp [ReadOutcome.failure] at hf
        subst hf
        rfl
      · simp [ReadOutcome.failure] at hf
  have hroute : routerGet rd now s = (.nextErr e, s) := by
    simp [routerGet, hc, hload]
  exact ⟨hload, hroute, by simp [hroute, hc], by simp [hroute, ht]⟩

/-- Witness for `loadStats_error_spec`: a read error on the cold initial
state. -/
theorem loadStats_error_spec_witness :
    loadStats (.readErr ⟨"ENOENT"⟩) 3 initialState =
      (.error ⟨"ENOENT"⟩, initialState) ∧
    routerGet (.readErr ⟨"ENOENT"⟩) 3 initialState =
      (.nextErr ⟨"ENOENT"⟩, initialState) ∧
    (routerGet (.readErr ⟨"ENOENT"⟩) 3 initialState).2.statsCache = none ∧
    (routerGet (.readErr ⟨"ENOENT"⟩) 3 initialState).2.cacheTimestamp = none :=
  loadStats_error_spec initialState (.readErr ⟨"ENOENT"⟩) 3 ⟨"ENOENT"⟩ rfl rfl rfl

/-- Claim C8: the pairing invariant — `statsCache` and `cacheTimestamp` are
both set or both null — holds initially and is preserved by every operation
of the module: `loadStats`, the request handler, the watch callback (any
event type, any read outcome), `setupFileWatcher` and `router._cleanup`. -/
theorem cachePaired_invariant (s : StatsState) (rd : ReadOutcome) (now : Timestamp)
    (eventType : String) (wr : Except JsError Nat) (h : cachePaired s) :
    cachePaired (loadStats rd now s).2 ∧
    cachePaired (routerGet rd now s).2 ∧
    cachePaired (watchCallback eventType rd now s).1 ∧
    cachePaired (setupFileWatcher wr s) ∧
    cachePaired (cleanup s).1 ∧
    cachePaired initialState := by
  have hload : ∀ s2 : StatsState, cachePaired s2 → cachePaired (loadStats rd now s2).2 := by
    intro s2 h2
    rcases rd with e | r
    · simpa [loadStats] using h2
    · rcases r with e | items
      · simpa [loadStats] using h2
      · simp [loadStats, cachePaired]
  refine ⟨hload s h, ?_, ?_, ?_, ?_, by simp [cachePaired, initialState]⟩
  · rcases hcache : s.statsCache with _ | st
    · rcases hrg : loadStats rd now s with ⟨r, s1⟩
      rcases r with e | stats
      · have hs1 : (routerGet rd now s).2 = s1 := by simp [routerGet, hcache, hrg]
        rw [hs1, show s1 = (loadStats rd now s).2 from by rw [hrg]]
        exact hload s h
      · have hs1 : (routerGet rd now s).2 = s1 := by simp [routerGet, hcache, hrg]
        rw [hs1, show s1 = (loadStats rd now s).2 from by rw [hrg]]
        exact hload s h
    · simpa [routerGet, hcache] using h
  · by_cases hev : eventType = "change"
    · have hcb : (watchCallback eventType rd now s).1 =
          (loadStats rd now (changeEventSync s)).2 := by
        rcases rd with e | r
        · simp [watchCallback, hev, loadStats]
        · rcases r with e | items <;> simp [watchCallback, hev, loadStats]
      rw [hcb]
      exact hload _ (by simp [changeEventSync, cachePaired])
    · simpa [watchCallback, hev] using h
  · rcases hw : s.watcher with _ | w
    · rcases wr with e | hnd <;> simpa [setupFileWatcher, cachePaired, hw] using h
    · simpa [setupFileWatcher, cachePaired, hw] using h
  · rcases hw : s.watcher with _ | w <;> simpa [cleanup, cachePaired, hw] using h

/-- Witness for `cachePaired_invariant` at the initial state with a
successful read of the sample store. -/
theorem cachePaired_invariant_witness :
    cachePaired (loadStats (.parsed (.ok (some sampleItems))) 3 initialState).2 ∧
    cachePaired (routerGet (.parsed (.ok (some sampleItems))) 3 initialState).2 ∧
    cachePaired (watchCallback changeEvent
      (.parsed (.ok (some sampleItems))) 3 initialState).1 ∧
    cachePaired (setupFileWatcher (.ok 0) initialState) ∧
    cachePaired (cleanup initialState).1 ∧
    cachePaired initialState :=
  cachePaired_invariant initialState (.parsed (.ok (some sampleItems))) 3
    changeEvent (.ok 0) rfl

/-- Claim C9: `setupFileWatcher` is a no-op while a watcher exists (the
transition to watching happens at most once until a stop); `router._cleanup`
is a safe no-op when the watcher was never started, is idempotent, and when a
watcher exists it closes exactly that handle and resets the state to
unstarted. -/
theorem watcherLifecycle_spec (s : StatsState) (wr : Except JsError Nat) :
    (∀ hnd, s.watcher = some hnd → setupFileWatcher wr s = s) ∧
    (s.watcher = none → cleanup s = (s, none)) ∧
    (cleanup (cleanup s).1 = ((cleanup s).1, none)) ∧
    (∀ hnd, s.watcher = some hnd →
      cleanup s = ({ s with watcher := none }, some hnd)) := by
  refine ⟨?_, ?_, ?_, ?_⟩
  · intro hnd hw
    simp [setupFileWatcher, hw]
  · intro hw
    simp [cleanup, hw]
  · rcases hw : s.watcher with _ | w <;> simp [cleanup, hw]
  · intro hnd hw
    simp [cleanup, hw]

/-- Witness for `watcherLifecycle_spec`: setup on an already-watching state is
a no-op; cleanup on the never-started state is a no-op; cleanup closes handle
0 and resets; a second cleanup closes nothing. -/
theorem watcherLifecycle_spec_witness :
    setupFileWatcher (.ok 1) ⟨none, none, some 0⟩ = ⟨none, none, some 0⟩ ∧
    cleanup initialState = (initialState, none) ∧
    cleanup (cleanup (⟨none, none, some 0⟩ : StatsState)).1 =
      ((cleanup (⟨none, none, some 0⟩ : StatsState)).1, none) ∧
    cleanup (⟨none, none, some 0⟩ : StatsState) = (⟨none, none, none⟩, some 0) := by
  have h := watcherLifecycle_spec ⟨none, none, some 0⟩ (.ok 1)
  exact ⟨h.1 0 rfl, (watcherLifecycle_spec initialState (.ok 1)).2.1 rfl,
    h.2.2.1, h.2.2.2 0 rfl⟩

end SweepLab
